import Mathlib

/-!
# ReadMeABook — verification of the download-orchestration subsystem

Shallow embedding of the parts of the ReadMeABook repository that the
spec's claims are about:

* `RetrySweep` — the retry-failed-imports processor
  (`processRetryFailedImports`, `src/lib/processors/retry-failed-imports.processor.ts`).
* `SelectEbook` — the select-ebook API route
  (`POST`, `src/app/api/requests/[id]/select-ebook/route.ts`).
* `DirectDownload` — the direct-download processor
  (`processStartDirectDownload` / `processMonitorDirectDownload`); its
  implementation file is not part of this snapshot, so it is modelled from
  the spec and cross-checked against its unit tests
  (`src/tests/processors/direct-download.processor.test.ts`).

Database rows are Lean structures; the external collaborators (download
clients, job queue, configuration service, path mapper, filesystem) are
fields of an environment record, fallible operations returning
`Except String _` where the source awaits a promise that may reject.
Effects (status writes, enqueued jobs, client calls) are recorded in the
returned value so that ordering and counting claims are statable.
-/

namespace RetrySweep

/-- The fields of a selected `DownloadHistory` row read by the retry sweep.
The source checks these with JavaScript truthiness
(`if (downloadHistory.torrentHash)` …), under which the empty string counts
as absent; absent-or-empty column values are represented as `none`. -/
structure HistoryRow where
  torrentHash : Option String
  nzbId : Option String
  torrentName : Option String
deriving Repr, DecidableEq

/-- A `Request` row as loaded by the sweep's `findMany`, together with its
included relation: the `selected = true` download-history rows ordered by
`createdAt` descending (the query then takes the first of these). -/
structure RequestRow where
  id : String
  status : String
  deletedAt : Option Nat
  audiobookId : String
  downloadHistory : List HistoryRow
deriving Repr, DecidableEq

/-- The fields of a qBittorrent torrent used by the sweep. -/
structure QbtTorrent where
  save_path : String
  name : String
deriving Repr, DecidableEq

/-- The SABnzbd history record for an NZB id; `downloadPath` is checked
with JS truthiness in the source, so an empty path is `none`. -/
structure NzbInfo where
  downloadPath : Option String
deriving Repr, DecidableEq

/-- External collaborators of the sweep. `transform` is
`PathMapper.transform` with the mapping configuration that the sweep loads
once at the start (the `PathMapper` utility is outside this snapshot, so it
is kept opaque as a plain path-rewriting function). `getTorrent`/`getNZB`
are the download-client lookups, which may reject; `addOrganizeJob` is the
job-queue enqueue, which may also reject. -/
structure RetryEnv where
  transform : String → String
  downloadDir : Option String
  getTorrent : String → Except String QbtTorrent
  getNZB : String → Except String (Option NzbInfo)
  addOrganizeJob : String → String → String → Except String Unit

/-- An organize job as enqueued by `jobQueue.addOrganizeJob`. -/
structure OrganizeJob where
  requestId : String
  audiobookId : String
  path : String
deriving Repr, DecidableEq

/-- The effects and counter increments of processing one request:
`triggered`/`skipped` increments, organize jobs actually enqueued,
number of `addOrganizeJob` invocations, and `prisma.request.update`
writes (request id, new status) — the sweep performs none. -/
structure StepRes where
  triggered : Nat
  skipped : Nat
  jobs : List OrganizeJob
  calls : Nat
  requestWrites : List (String × String)
deriving Repr, DecidableEq

/-- Outcome of a skip path (`skipped++; continue`). -/
def skipStep : StepRes := ⟨0, 1, [], 0, []⟩

/-- The tail of a successful path resolution: call
`jobQueue.addOrganizeJob(request.id, request.audiobook.id, downloadPath)`
and bump `triggered`; a rejection is caught by the per-item handler and
bumps `skipped` instead. -/
def enqueueStep (env : RetryEnv) (req : RequestRow) (path : String) : StepRes :=
  match env.addOrganizeJob req.id req.audiobookId path with
  | .ok _ => ⟨1, 0, [⟨req.id, req.audiobookId, path⟩], 1, []⟩
  | .error _ => ⟨0, 1, [], 1, []⟩

/-- The fallback shared by all three branches of the source: skip when no
`torrentName` was stored, skip when `download_dir` is not configured,
otherwise organize `PathMapper.transform(downloadDir + "/" + name)`. -/
def fallbackStep (env : RetryEnv) (req : RequestRow) (h : HistoryRow) : StepRes :=
  match h.torrentName with
  | none => skipStep
  | some nm =>
    match env.downloadDir with
    | none => skipStep
    | some dir => enqueueStep env req (env.transform (dir ++ "/" ++ nm))

/-- One iteration of the sweep's `for (const request of requests)` loop:
branch on the first selected download-history row exactly as the source
does (`torrentHash` → qBittorrent lookup with fallback on rejection;
`nzbId` → SABnzbd lookup, fallback when no path is recorded, skip on
rejection; neither → fallback). -/
def retryStep (env : RetryEnv) (req : RequestRow) : StepRes :=
  match req.downloadHistory.head? with
  | none => skipStep
  | some h =>
    match h.torrentHash with
    | some hash =>
      match env.getTorrent hash with
      | .ok t => enqueueStep env req (env.transform (t.save_path ++ "/" ++ t.name))
      | .error _ => fallbackStep env req h
    | none =>
      match h.nzbId with
      | some nid =>
        match env.getNZB nid with
        | .error _ => skipStep
        | .ok none => fallbackStep env req h
        | .ok (some info) =>
          match info.downloadPath with
          | some p => enqueueStep env req (env.transform p)
          | none => fallbackStep env req h
      | none => fallbackStep env req h

/-- Pointwise accumulation of step effects. -/
def StepRes.combine (a b : StepRes) : StepRes :=
  ⟨a.triggered + b.triggered, a.skipped + b.skipped, a.jobs ++ b.jobs,
   a.calls + b.calls, a.requestWrites ++ b.requestWrites⟩

/-- The sweep's loop over the loaded requests. -/
def sweepList (env : RetryEnv) : List RequestRow → StepRes
  | [] => ⟨0, 0, [], 0, []⟩
  | r :: rs => (retryStep env r).combine (sweepList env rs)

/-- The sweep's `findMany`: active requests in `awaiting_import`
(`deletedAt: null`), limited by `take: 50`. -/
def loadedRequests (db : List RequestRow) : List RequestRow :=
  (db.filter (fun r => r.status == "awaiting_import" && r.deletedAt.isNone)).take 50

/-- The value returned by `processRetryFailedImports`: on the empty early
return the source includes neither `totalRequests` nor `skipped`, hence the
`Option` fields. -/
structure RetryOutcome where
  success : Bool
  totalRequests : Option Nat
  triggered : Nat
  skipped : Option Nat
  jobs : List OrganizeJob
  calls : Nat
  requestWrites : List (String × String)
deriving Repr, DecidableEq

/-- `processRetryFailedImports`: load up to 50 stuck requests, return early
when there are none, otherwise run the per-request loop and report the
counters. -/
def processRetryFailedImports (env : RetryEnv) (db : List RequestRow) : RetryOutcome :=
  let reqs := loadedRequests db
  if reqs.isEmpty then ⟨true, none, 0, none, [], 0, []⟩
  else
    let s := sweepList env reqs
    ⟨true, some reqs.length, s.triggered, some s.skipped, s.jobs, s.calls, s.requestWrites⟩

end RetrySweep

namespace SelectEbook

/-- A `Request` row with the fields the select-ebook route reads or
writes. -/
structure ReqRow where
  id : String
  userId : String
  audiobookId : String
  type : String
  status : String
  progress : Nat
  parentRequestId : Option String
  errorMessage : Option String
  deletedAt : Option Nat
deriving Repr, DecidableEq

/-- The body's `ebook` object; only its `source` field steers the request
bookkeeping (absent source is rejected with 400). The remaining fields feed
the download-history record and job payloads, which do not touch the
requests relation. -/
structure EbookSel where
  source : Option String
deriving Repr, DecidableEq

/-- The HTTP outcomes of the route that are relevant to the requests
relation. -/
inductive SelectResp where
  | badRequest (msg : String)
  | notFound
  | ok (requestId : String)
deriving Repr, DecidableEq

/-- `prisma.request.findUnique({ where: { id } })`. -/
def findUniqueReq (db : List ReqRow) (id : String) : Option ReqRow :=
  db.find? (fun r => r.id == id)

/-- `prisma.request.findFirst({ where: { parentRequestId, type: 'ebook',
deletedAt: null } })`. -/
def findEbookChild (db : List ReqRow) (pid : String) : Option ReqRow :=
  db.find? (fun r => r.parentRequestId == some pid && r.type == "ebook" && r.deletedAt.isNone)

/-- `prisma.request.update({ where: { id: childId }, data: { status:
'searching', progress: 0, errorMessage: null } })` — resets the row with
the child's id, leaving every other row alone. -/
def resetChild (childId : String) (r : ReqRow) : ReqRow :=
  if r.id = childId then
    { r with status := "searching", progress := 0, errorMessage := none }
  else r

/-- `prisma.request.create` of the new e-book child of `parent`. -/
def newEbookRow (parent : ReqRow) (parentRequestId freshId : String) : ReqRow :=
  ⟨freshId, parent.userId, parent.audiobookId, "ebook", "searching", 0,
   some parentRequestId, none, none⟩

/-- The `POST /api/requests/[id]/select-ebook` handler, restricted to its
effect on the requests relation (the download-history insert and the job
enqueues of `handleAnnasArchiveDownload`/`handleIndexerDownload` write
other tables). `freshId` stands for the id the store generates for a newly
created row. Guards appear in source order: missing ebook, missing source,
unknown parent, non-audiobook parent, parent not `downloaded`/`available`,
live ebook child in a non-retryable status; then either the existing child
is reset to `searching` or a new `type = 'ebook'` child of the parent is
created. -/
def selectEbookPOST (db : List ReqRow) (parentRequestId : String)
    (ebook : Option EbookSel) (freshId : String) : List ReqRow × SelectResp :=
  match ebook with
  | none => (db, .badRequest "No ebook selected")
  | some sel =>
    match sel.source with
    | none => (db, .badRequest "Ebook source not specified")
    | some _ =>
      match findUniqueReq db parentRequestId with
      | none => (db, .notFound)
      | some parent =>
        if parent.type ≠ "audiobook" then
          (db, .badRequest "Can only select ebooks for audiobook requests")
        else if ¬ (parent.status = "downloaded" ∨ parent.status = "available") then
          (db, .badRequest "Cannot select ebook for request in this status")
        else
          match findEbookChild db parentRequestId with
          | some child =>
            if ¬ (child.status = "failed" ∨ child.status = "awaiting_search" ∨
                  child.status = "pending") then
              (db, .badRequest "E-book request already exists")
            else
              (db.map (resetChild child.id), .ok child.id)
          | none =>
            (db ++ [newEbookRow parent parentRequestId freshId], .ok freshId)

/-- Every row that names a parent names one whose rows are all of type
`audiobook`. -/
def ParentsAreAudiobooks (db : List ReqRow) : Prop :=
  ∀ c ∈ db, ∀ p ∈ db, c.parentRequestId = some p.id → p.type = "audiobook"

/-- Every parent pointer refers to an id present in the relation (rows are
soft-deleted, never removed, and the FK is `ON DELETE SET NULL`). -/
def ParentsExist (db : List ReqRow) : Prop :=
  ∀ c ∈ db, ∀ pid, c.parentRequestId = some pid → pid ∈ db.map (fun r => r.id)

/-- The two-level-tree invariant of the `parentRequestId` relation. -/
def TwoLevelInv (db : List ReqRow) : Prop :=
  ParentsAreAudiobooks db ∧ ParentsExist db

end SelectEbook

namespace DirectDownload

/-- Modelled from the spec: the parsed download-history row of a direct
download, whose `torrentUrl` column holds a JSON array of candidate
page URLs (fallback mirrors). -/
structure DDHist where
  candidates : List String
deriving Repr, DecidableEq

/-- Modelled from the spec: the extractor result
(`extractDownloadUrl → {url, format} | null`). -/
structure ExtractResult where
  url : String
  format : String
deriving Repr, DecidableEq

/-- Modelled from the spec: external collaborators of
`processStartDirectDownload`. `config` is `getConfigService().get`;
`findHistory` is `prisma.downloadHistory.findUnique`, which may reject
(backing store unreachable); `extract` is the resolver outcome per
candidate page URL; `fetchDownload` streams a resolved file URL to disk
and yields the stat size of the written file, or a failure; `audiobookOf`
gives the request's associated audiobook id. -/
structure DDEnv where
  config : String → Option String
  findHistory : String → Except String (Option DDHist)
  extract : String → Option ExtractResult
  fetchDownload : String → Except String Nat
  audiobookOf : String → String

/-- The payload of `processStartDirectDownload`. -/
structure StartPayload where
  requestId : String
  downloadHistoryId : String
  downloadUrl : String
  targetFilename : String
  jobId : String
deriving Repr, DecidableEq

/-- Observable side effects of a run, in order: request-row status writes,
download-history status writes, extractor invocations (with the arguments
the source passes: page URL, sidecar base URL, preferred format, and the
optional FlareSolverr URL as trailing argument), network fetches, and
organize-job enqueues. -/
inductive DDEvent where
  | reqUpdate (id : String) (status : String) (progress : Option Nat)
      (errorMessage : Option String)
  | histUpdate (id : String) (status : String)
  | extractCall (pageUrl : String) (baseUrl : String) (preferredFormat : String)
      (flaresolverrUrl : Option String)
  | fetchCall (url : String)
  | organizeJob (requestId : String) (audiobookId : String) (path : String)
deriving Repr, DecidableEq

/-- An event that touches the network: an extractor attempt or a file
fetch. -/
def DDEvent.isNetwork : DDEvent → Bool
  | .extractCall _ _ _ _ => true
  | .fetchCall _ => true
  | _ => false

/-- The structured result of `processStartDirectDownload`. -/
structure DDResult where
  success : Bool
deriving Repr, DecidableEq

/-- Modelled from the spec: the per-candidate loop — resolve the landing
page via the extractor (passing the configured FlareSolverr URL through
when present), advance to the next candidate when resolution returns no
result; otherwise fetch the resolved URL, stream it to
`<downloads_dir>/<targetFilename>`, and on a non-empty written file enqueue
the organize job and stop with success; a failed or empty download also
advances to the next candidate. -/
def tryCandidates (env : DDEnv) (p : StartPayload) (dir : String) :
    List String → List DDEvent × Bool
  | [] => ([], false)
  | u :: rest =>
    let ev := DDEvent.extractCall u ((env.config "ebook_sidecar_base_url").getD "")
      ((env.config "ebook_sidecar_preferred_format").getD "epub")
      (env.config "ebook_sidecar_flaresolverr_url")
    match env.extract u with
    | none =>
      let r := tryCandidates env p dir rest
      (ev :: r.1, r.2)
    | some res =>
      match env.fetchDownload res.url with
      | .error _ =>
        let r := tryCandidates env p dir rest
        (ev :: DDEvent.fetchCall res.url :: r.1, r.2)
      | .ok size =>
        if size = 0 then
          let r := tryCandidates env p dir rest
          (ev :: DDEvent.fetchCall res.url :: r.1, r.2)
        else
          ([ev, DDEvent.fetchCall res.url,
            DDEvent.organizeJob p.requestId (env.audiobookOf p.requestId)
              (dir ++ "/" ++ p.targetFilename)], true)

/-- Modelled from the spec: `processStartDirectDownload` (its source file is
absent from this snapshot; behavior follows spec §4.1 and the unit tests).
It first marks the request `downloading` with progress 0 and the history
row `downloading` — before any network I/O — then loads the candidate list
from the history row and walks it; exhaustion marks request and history
`failed` and returns `success: false` without raising, while an unexpected
store rejection marks the request `failed` with the error message and
re-raises it. Returns the ordered effect trace and the promise outcome. -/
def processStartDirectDownload (env : DDEnv) (p : StartPayload) :
    List DDEvent × Except String DDResult :=
  let e1 := DDEvent.reqUpdate p.requestId "downloading" (some 0) none
  let e2 := DDEvent.histUpdate p.downloadHistoryId "downloading"
  match env.findHistory p.downloadHistoryId with
  | .error e =>
    (e1 :: e2 :: [DDEvent.reqUpdate p.requestId "failed" none (some e)], .error e)
  | .ok histOpt =>
    let candidates := match histOpt with
      | some h => h.candidates
      | none => []
    let dir := (env.config "downloads_dir").getD ""
    let r := tryCandidates env p dir candidates
    if r.2 then (e1 :: e2 :: r.1, .ok ⟨true⟩)
    else
      (e1 :: e2 :: (r.1 ++
        [DDEvent.reqUpdate p.requestId "failed" none (some "All download attempts failed"),
         DDEvent.histUpdate p.downloadHistoryId "failed"]),
       .ok ⟨false⟩)

/-- The payload of `processMonitorDirectDownload`. -/
structure MonitorPayload where
  requestId : String
  downloadHistoryId : String
  downloadId : String
  targetPath : String
  expectedSize : Nat
  jobId : String
deriving Repr, DecidableEq

/-- Modelled from the spec: the filesystem stat of the monitor processor
(`fs.stat`), returning the file size or rejecting when the file is
missing. -/
structure MonitorEnv where
  stat : String → Except String Nat

/-- The result of `processMonitorDirectDownload`. -/
structure MonitorResult where
  success : Bool
  completed : Bool
  message : Option String
deriving Repr, DecidableEq

/-- Modelled from the spec: `processMonitorDirectDownload` (source file
absent from this snapshot) stats the expected output file; if present it
reports success and completion, if the stat rejects it reports a
"not found" failure — a coarse completion check that cannot tell a
still-downloading file from one that never started. -/
def processMonitorDirectDownload (env : MonitorEnv) (p : MonitorPayload) :
    MonitorResult :=
  match env.stat p.targetPath with
  | .ok _ => ⟨true, true, none⟩
  | .error _ => ⟨false, false, some (p.downloadId ++ " not found")⟩

end DirectDownload

namespace RetrySweep

/-- The per-request accounting invariant: exactly one counter bumped, jobs
recorded iff triggered, at most one enqueue call, no request-row write. -/
def StepOk (s : StepRes) : Prop :=
  s.triggered + s.skipped = 1 ∧ s.jobs.length = s.triggered ∧ s.calls ≤ 1 ∧
  s.requestWrites = []

theorem skipStep_ok : StepOk skipStep := by
  refine ⟨rfl, rfl, ?_, rfl⟩
  simp [skipStep]

theorem enqueueStep_ok (env : RetryEnv) (req : RequestRow) (path : String) :
    StepOk (enqueueStep env req path) := by
  unfold enqueueStep
  cases env.addOrganizeJob req.id req.audiobookId path <;>
    exact ⟨rfl, rfl, by simp, rfl⟩

theorem fallbackStep_ok (env : RetryEnv) (req : RequestRow) (h : HistoryRow) :
    StepOk (fallbackStep env req h) := by
  unfold fallbackStep
  cases h.torrentName with
  | none => exact skipStep_ok
  | some nm =>
    cases env.downloadDir with
    | none => exact skipStep_ok
    | some dir => exact enqueueStep_ok env req _

theorem retryStep_ok (env : RetryEnv) (req : RequestRow) :
    StepOk (retryStep env req) := by
  unfold retryStep
  repeat' split
  all_goals first
    | exact skipStep_ok
    | exact fallbackStep_ok env req _
    | exact enqueueStep_ok env req _

theorem sweepList_append (env : RetryEnv) (l₁ l₂ : List RequestRow) :
    sweepList env (l₁ ++ l₂) = (sweepList env l₁).combine (sweepList env l₂) := by
  induction l₁ with
  | nil =>
    show sweepList env l₂ = StepRes.combine ⟨0, 0, [], 0, []⟩ (sweepList env l₂)
    simp [StepRes.combine]
  | cons r rs ih =>
    show (retryStep env r).combine (sweepList env (rs ++ l₂)) = _
    rw [ih]
    simp [sweepList, StepRes.combine, Nat.add_assoc]

theorem sweepList_counts (env : RetryEnv) (l : List RequestRow) :
    (sweepList env l).triggered + (sweepList env l).skipped = l.length := by
  induction l with
  | nil => rfl
  | cons r rs ih =>
    have h := (retryStep_ok env r).1
    simp only [sweepList, StepRes.combine, List.length_cons]
    omega

theorem sweepList_jobs_length (env : RetryEnv) (l : List RequestRow) :
    (sweepList env l).jobs.length = (sweepList env l).triggered := by
  induction l with
  | nil => rfl
  | cons r rs ih =>
    have h := (retryStep_ok env r).2.1
    simp only [sweepList, StepRes.combine, List.length_append]
    omega

theorem sweepList_requestWrites (env : RetryEnv) (l : List RequestRow) :
    (sweepList env l).requestWrites = [] := by
  induction l with
  | nil => rfl
  | cons r rs ih =>
    have h := (retryStep_ok env r).2.2.2
    simp only [sweepList, StepRes.combine, h, ih, List.nil_append]

theorem loadedRequests_le (db : List RequestRow) :
    (loadedRequests db).length ≤ 50 := by
  unfold loadedRequests
  simp [List.length_take]

theorem processRetry_nonempty (env : RetryEnv) (db : List RequestRow)
    (hne : (loadedRequests db).isEmpty = false) :
    processRetryFailedImports env db =
      ⟨true, some (loadedRequests db).length,
       (sweepList env (loadedRequests db)).triggered,
       some (sweepList env (loadedRequests db)).skipped,
       (sweepList env (loadedRequests db)).jobs,
       (sweepList env (loadedRequests db)).calls,
       (sweepList env (loadedRequests db)).requestWrites⟩ := by
  unfold processRetryFailedImports
  simp [hne]

end RetrySweep

namespace RetrySweep

theorem processRetry_empty (env : RetryEnv) (db : List RequestRow)
    (hE : (loadedRequests db).isEmpty = true) :
    processRetryFailedImports env db = ⟨true, none, 0, none, [], 0, []⟩ := by
  unfold processRetryFailedImports
  simp [hE]

/-- A concrete environment: the torrent is no longer known to qBittorrent,
SABnzbd has no record, enqueues succeed, and the path mapper is the
identity. -/
def envNoTorrent : RetryEnv :=
  ⟨fun s => s, some "/downloads", fun _ => .error "torrent not found",
   fun _ => .ok none, fun _ _ _ => .ok ()⟩

/-- A concrete environment whose job-queue enqueue rejects. -/
def envQueueDown : RetryEnv :=
  ⟨fun s => s, some "/downloads", fun _ => .ok ⟨"/data", "Book"⟩,
   fun _ => .error "sab down", fun _ _ _ => .error "queue unavailable"⟩

/-- A stuck request whose selected history row stores no identifier and no
name. -/
def reqNoIds : RequestRow :=
  ⟨"req-1", "awaiting_import", none, "ab-1", [⟨none, none, none⟩]⟩

/-- A stuck request whose selected history row stores a torrent hash and a
name. -/
def reqStaleTorrent : RequestRow :=
  ⟨"req-2", "awaiting_import", none, "ab-2",
   [⟨some "hash-2", none, some "Book Folder"⟩]⟩

/-- A stuck request whose selected history row stores only a torrent
hash. -/
def reqQbt : RequestRow :=
  ⟨"req-3", "awaiting_import", none, "ab-3", [⟨some "hash-3", none, none⟩]⟩

/-- C6: a sweep loads at most 50 awaiting-import requests, and a loaded
request whose selected download-history row has neither a torrent hash, an
NZB id, nor a stored torrent name is counted in the returned `skipped`
counter and not in `triggered`: relative to the sweep over the other
requests, `triggered` is unchanged, `skipped` is one higher, no organize
job is added for it, and the sweep performs no request-status write, so
the request stays in its current status. -/
theorem retrySweep_limit_and_unidentified_skipped
    (env : RetryEnv) (db l₁ l₂ : List RequestRow) (req : RequestRow) (h : HistoryRow)
    (hsplit : loadedRequests db = l₁ ++ req :: l₂)
    (hh : req.downloadHistory.head? = some h)
    (hHash : h.torrentHash = none) (hNzb : h.nzbId = none)
    (hName : h.torrentName = none) :
    (loadedRequests db).length ≤ 50 ∧
    (processRetryFailedImports env db).triggered = (sweepList env (l₁ ++ l₂)).triggered ∧
    (processRetryFailedImports env db).skipped =
      some ((sweepList env (l₁ ++ l₂)).skipped + 1) ∧
    (processRetryFailedImports env db).jobs = (sweepList env (l₁ ++ l₂)).jobs ∧
    (processRetryFailedImports env db).requestWrites = [] := by
  have hstep : retryStep env req = skipStep := by
    simp [retryStep, fallbackStep, hh, hHash, hNzb, hName]
  have hne : (loadedRequests db).isEmpty = false := by
    rw [hsplit]; cases l₁ <;> rfl
  have hsw : sweepList env (loadedRequests db)
      = (sweepList env l₁).combine (skipStep.combine (sweepList env l₂)) := by
    rw [hsplit, sweepList_append, ← hstep]; rfl
  rw [processRetry_nonempty env db hne, hsw, sweepList_append]
  have hw₁ := sweepList_requestWrites env l₁
  have hw₂ := sweepList_requestWrites env l₂
  refine ⟨loadedRequests_le db, ?_, ?_, ?_, ?_⟩
  · simp [StepRes.combine, skipStep]
  · simp only [StepRes.combine, skipStep, Option.some.injEq]
    omega
  · simp [StepRes.combine, skipStep]
  · simp [StepRes.combine, skipStep, hw₁, hw₂]

/-- Witness for C6 at a one-request database whose history row has no
identifiers. -/
theorem retrySweep_limit_and_unidentified_skipped_witness :
    (loadedRequests [reqNoIds]).length ≤ 50 ∧
    (processRetryFailedImports envNoTorrent [reqNoIds]).triggered =
      (sweepList envNoTorrent ([] ++ [])).triggered ∧
    (processRetryFailedImports envNoTorrent [reqNoIds]).skipped =
      some ((sweepList envNoTorrent ([] ++ [])).skipped + 1) ∧
    (processRetryFailedImports envNoTorrent [reqNoIds]).jobs =
      (sweepList envNoTorrent ([] ++ [])).jobs ∧
    (processRetryFailedImports envNoTorrent [reqNoIds]).requestWrites = [] :=
  retrySweep_limit_and_unidentified_skipped envNoTorrent [reqNoIds] [] []
    reqNoIds ⟨none, none, none⟩ rfl rfl rfl rfl rfl

/-- C7: a sweep always runs to completion and returns the outcome
counters: every loaded request is accounted for in `triggered` plus
`skipped` whatever the environment does (including a rejecting job-queue
enqueue for any of the requests), and the sweep over a concatenation is
the accumulation of the sweeps over the parts, so one request's failure
never aborts the processing of the remaining requests. -/
theorem retrySweep_isolated_failures (env : RetryEnv) (db : List RequestRow) :
    (processRetryFailedImports env db).success = true ∧
    (processRetryFailedImports env db).triggered +
      (processRetryFailedImports env db).skipped.getD 0 =
      (loadedRequests db).length ∧
    ∀ l₁ l₂ : List RequestRow,
      sweepList env (l₁ ++ l₂) = (sweepList env l₁).combine (sweepList env l₂) := by
  have hmain : (processRetryFailedImports env db).success = true ∧
      (processRetryFailedImports env db).triggered +
        (processRetryFailedImports env db).skipped.getD 0 =
        (loadedRequests db).length := by
    cases hE : (loadedRequests db).isEmpty with
    | true =>
      rw [processRetry_empty env db hE]
      have h0 : loadedRequests db = [] := List.isEmpty_iff.mp hE
      simp [h0]
    | false =>
      rw [processRetry_nonempty env db hE]
      exact ⟨rfl, by simpa using sweepList_counts env (loadedRequests db)⟩
  exact ⟨hmain.1, hmain.2, sweepList_append env⟩

/-- C8: for a stuck request whose history row holds a torrent hash the
client no longer knows, or an NZB id for which the client history records
no download path, the sweep enqueues an organize job whose path is the
path-mapping translation of the configured base download directory joined
with the stored name, and counts the request as triggered. -/
theorem retrySweep_stale_reference_fallback
    (env : RetryEnv) (req : RequestRow) (h : HistoryRow) (nm dir : String)
    (hh : req.downloadHistory.head? = some h)
    (hName : h.torrentName = some nm)
    (hDir : env.downloadDir = some dir)
    (hEnq : env.addOrganizeJob req.id req.audiobookId
      (env.transform (dir ++ "/" ++ nm)) = .ok ())
    (hStale :
      (∃ hash e, h.torrentHash = some hash ∧ env.getTorrent hash = .error e) ∨
      (h.torrentHash = none ∧ ∃ nid, h.nzbId = some nid ∧
        (env.getNZB nid = .ok none ∨ env.getNZB nid = .ok (some ⟨none⟩)))) :
    retryStep env req =
      ⟨1, 0, [⟨req.id, req.audiobookId, env.transform (dir ++ "/" ++ nm)⟩], 1, []⟩ := by
  rcases hStale with ⟨hash, e, hHash, hErr⟩ | ⟨hHash, nid, hNzb, hInfo⟩
  · simp [retryStep, fallbackStep, enqueueStep, hh, hHash, hErr, hName, hDir, hEnq]
  · rcases hInfo with hI | hI <;>
      simp [retryStep, fallbackStep, enqueueStep, hh, hHash, hNzb, hI, hName, hDir, hEnq]

/-- Witness for C8: a concrete request with a stale torrent hash and a
stored name, under the concrete environment whose client lookup rejects. -/
theorem retrySweep_stale_reference_fallback_witness :
    retryStep envNoTorrent reqStaleTorrent =
      ⟨1, 0, [⟨reqStaleTorrent.id, reqStaleTorrent.audiobookId,
         envNoTorrent.transform ("/downloads" ++ "/" ++ "Book Folder")⟩], 1, []⟩ :=
  retrySweep_stale_reference_fallback envNoTorrent reqStaleTorrent
    ⟨some "hash-2", none, some "Book Folder"⟩ "Book Folder" "/downloads"
    rfl rfl rfl rfl (Or.inl ⟨"hash-2", "torrent not found", rfl, rfl⟩)

/-- C10 counterexample: with a job queue whose enqueue rejects, the sweep
makes one `addOrganizeJob` call for the single loaded request but reports
`triggered = 0` (the request lands in `skipped`), so `triggered` does not
equal the number of `addOrganizeJob` calls made. -/
theorem retrySweep_calls_counterexample :
    (processRetryFailedImports envQueueDown [reqQbt]).calls = 1 ∧
    (processRetryFailedImports envQueueDown [reqQbt]).triggered = 0 ∧
    (processRetryFailedImports envQueueDown [reqQbt]).triggered ≠
      (processRetryFailedImports envQueueDown [reqQbt]).calls := by
  decide

/-- C10 (amended): each loaded request is counted in exactly one of the
returned counters — `triggered` if and only if its organize job was
successfully enqueued, `skipped` otherwise (including requests with no
selected history row and requests whose enqueue call rejected) — so
`triggered` plus `skipped` equals the number of requests loaded and
`triggered` equals the number of `addOrganizeJob` calls that completed
successfully. -/
theorem retrySweep_counters_partition (env : RetryEnv) (db : List RequestRow) :
    (processRetryFailedImports env db).triggered +
      (processRetryFailedImports env db).skipped.getD 0 =
      (loadedRequests db).length ∧
    (processRetryFailedImports env db).jobs.length =
      (processRetryFailedImports env db).triggered ∧
    ∀ r : RequestRow,
      (retryStep env r).triggered + (retryStep env r).skipped = 1 ∧
      (retryStep env r).jobs.length = (retryStep env r).triggered := by
  refine ⟨?_, ?_, fun r => ⟨(retryStep_ok env r).1, (retryStep_ok env r).2.1⟩⟩
  · cases hE : (loadedRequests db).isEmpty with
    | true =>
      rw [processRetry_empty env db hE]
      have h0 : loadedRequests db = [] := List.isEmpty_iff.mp hE
      simp [h0]
    | false =>
      rw [processRetry_nonempty env db hE]
      exact by simpa using sweepList_counts env (loadedRequests db)
  · cases hE : (loadedRequests db).isEmpty with
    | true => rw [processRetry_empty env db hE]; rfl
    | false =>
      rw [processRetry_nonempty env db hE]
      exact sweepList_jobs_length env (loadedRequests db)

end RetrySweep

namespace SelectEbook

theorem findUniqueReq_spec (db : List ReqRow) (pid : String) (p : ReqRow)
    (h : findUniqueReq db pid = some p) : p ∈ db ∧ p.id = pid := by
  unfold findUniqueReq at h
  exact ⟨List.mem_of_find?_eq_some h, by simpa using List.find?_some h⟩

theorem resetChild_fields (childId : String) (r : ReqRow) :
    (resetChild childId r).id = r.id ∧ (resetChild childId r).type = r.type ∧
    (resetChild childId r).parentRequestId = r.parentRequestId := by
  unfold resetChild
  split <;> exact ⟨rfl, rfl, rfl⟩

/-- The route either leaves the requests relation unchanged, resets one
existing row in place, or appends one new e-book child of an audiobook
parent found by id. -/
theorem selectEbookPOST_cases (db : List ReqRow) (pid : String)
    (ebook : Option EbookSel) (freshId : String) :
    (selectEbookPOST db pid ebook freshId).1 = db ∨
    (∃ cid, (selectEbookPOST db pid ebook freshId).1 = db.map (resetChild cid)) ∨
    (∃ parent, findUniqueReq db pid = some parent ∧ parent.type = "audiobook" ∧
      (selectEbookPOST db pid ebook freshId).1 = db ++ [newEbookRow parent pid freshId]) := by
  unfold selectEbookPOST
  split
  · exact Or.inl rfl
  · split
    · exact Or.inl rfl
    · split
      · exact Or.inl rfl
      · rename_i parent hfind
        split
        · exact Or.inl rfl
        · rename_i htype
          split
          · exact Or.inl rfl
          · split
            · split
              · exact Or.inl rfl
              · exact Or.inr (Or.inl ⟨_, rfl⟩)
            · exact Or.inr (Or.inr ⟨parent, hfind, not_not.mp htype, rfl⟩)

theorem map_resetChild_inv (db : List ReqRow) (cid : String)
    (hinv : TwoLevelInv db) : TwoLevelInv (db.map (resetChild cid)) := by
  obtain ⟨h1, h2⟩ := hinv
  have hids : (db.map (resetChild cid)).map (fun r => r.id) = db.map (fun r => r.id) := by
    rw [List.map_map]
    exact List.map_congr_left (fun r _ => (resetChild_fields cid r).1)
  constructor
  · intro c hc p hp hcp
    obtain ⟨c0, hc0, rfl⟩ := List.mem_map.mp hc
    obtain ⟨p0, hp0, rfl⟩ := List.mem_map.mp hp
    rw [(resetChild_fields cid c0).2.2, (resetChild_fields cid p0).1] at hcp
    rw [(resetChild_fields cid p0).2.1]
    exact h1 c0 hc0 p0 hp0 hcp
  · intro c hc pid hcp
    obtain ⟨c0, hc0, rfl⟩ := List.mem_map.mp hc
    rw [(resetChild_fields cid c0).2.2] at hcp
    rw [hids]
    exact h2 c0 hc0 pid hcp

theorem append_newRow_inv (db : List ReqRow) (parent : ReqRow) (pid freshId : String)
    (hnodup : (db.map (fun r => r.id)).Nodup)
    (hfresh : freshId ∉ db.map (fun r => r.id))
    (hinv : TwoLevelInv db)
    (hfind : findUniqueReq db pid = some parent)
    (htype : parent.type = "audiobook") :
    TwoLevelInv (db ++ [newEbookRow parent pid freshId]) := by
  obtain ⟨hmem, hpid⟩ := findUniqueReq_spec db pid parent hfind
  obtain ⟨h1, h2⟩ := hinv
  have hpidmem : pid ∈ db.map (fun r => r.id) := by
    rw [← hpid]
    exact List.mem_map_of_mem _ hmem
  constructor
  · intro c hc p hp hcp
    rcases List.mem_append.mp hc with hc | hc
    · rcases List.mem_append.mp hp with hp | hp
      · exact h1 c hc p hp hcp
      · have hpe : p = newEbookRow parent pid freshId := by simpa using hp
        subst hpe
        have hin : freshId ∈ db.map (fun r => r.id) :=
          h2 c hc freshId (by simpa [newEbookRow] using hcp)
        exact absurd hin hfresh
    · have hce : c = newEbookRow parent pid freshId := by simpa using hc
      subst hce
      have hpid2 : p.id = pid := by
        have := hcp
        simp only [newEbookRow] at this
        exact (Option.some.inj this).symm
      rcases List.mem_append.mp hp with hp | hp
      · have hpp : p = parent :=
          List.inj_on_of_nodup_map hnodup hp hmem (by rw [hpid2, hpid])
        rw [hpp, htype]
      · have hpe : p = newEbookRow parent pid freshId := by simpa using hp
        have hfp : freshId = pid := by rw [← hpid2, hpe]; exact rfl
        exact absurd (hfp ▸ hpidmem) hfresh
  · intro c hc pid2 hcp
    rw [List.map_append]
    rcases List.mem_append.mp hc with hc | hc
    · exact List.mem_append_left _ (h2 c hc pid2 hcp)
    · have hce : c = newEbookRow parent pid freshId := by simpa using hc
      subst hce
      have : pid2 = pid := by
        have := hcp
        simp only [newEbookRow] at this
        exact (Option.some.inj this).symm
      subst this
      exact List.mem_append_left _ hpidmem

/-- C9: the select-ebook route preserves the two-level shape of the
`parentRequestId` relation: if every existing parent pointer names an
audiobook-typed row that is present in the relation, then after any
invocation of the route (for a store with unique ids and a fresh generated
id) this still holds, and in the resulting relation no row of type `ebook`
is the parent of any other row — the route creates e-book children only
under a parent it verified to be of type `audiobook`. -/
theorem selectEbook_two_level_tree
    (db : List ReqRow) (pid : String) (ebook : Option EbookSel) (freshId : String)
    (hnodup : (db.map (fun r => r.id)).Nodup)
    (hfresh : freshId ∉ db.map (fun r => r.id))
    (hinv : TwoLevelInv db) :
    TwoLevelInv (selectEbookPOST db pid ebook freshId).1 ∧
    ∀ c ∈ (selectEbookPOST db pid ebook freshId).1,
      ∀ p ∈ (selectEbookPOST db pid ebook freshId).1,
        c.parentRequestId = some p.id → p.type ≠ "ebook" := by
  have hinv2 : TwoLevelInv (selectEbookPOST db pid ebook freshId).1 := by
    rcases selectEbookPOST_cases db pid ebook freshId with
      hdb | ⟨cid, hdb⟩ | ⟨parent, hfind, htype, hdb⟩
    · rw [hdb]; exact hinv
    · rw [hdb]; exact map_resetChild_inv db cid hinv
    · rw [hdb]; exact append_newRow_inv db parent pid freshId hnodup hfresh hinv hfind htype
  refine ⟨hinv2, fun c hc p hp hcp => ?_⟩
  have h := hinv2.1 c hc p hp hcp
  rw [h]
  decide

/-- A store holding one audiobook request in `available` status. -/
def rowParent : ReqRow :=
  ⟨"p1", "u1", "ab1", "audiobook", "available", 100, none, none, none⟩

theorem rowParent_inv : TwoLevelInv [rowParent] := by
  constructor
  · intro c hc p hp hcp
    have hce : c = rowParent := by simpa using hc
    rw [hce] at hcp
    simp [rowParent] at hcp
  · intro c hc pid hcp
    have hce : c = rowParent := by simpa using hc
    rw [hce] at hcp
    simp [rowParent] at hcp

/-- Witness for C9: the route applied to a one-row store of an available
audiobook request, selecting an Anna's Archive source. -/
theorem selectEbook_two_level_tree_witness :
    TwoLevelInv (selectEbookPOST [rowParent] "p1" (some ⟨some "annas_archive"⟩) "e1").1 ∧
    ∀ c ∈ (selectEbookPOST [rowParent] "p1" (some ⟨some "annas_archive"⟩) "e1").1,
      ∀ p ∈ (selectEbookPOST [rowParent] "p1" (some ⟨some "annas_archive"⟩) "e1").1,
        c.parentRequestId = some p.id → p.type ≠ "ebook" :=
  selectEbook_two_level_tree [rowParent] "p1" (some ⟨some "annas_archive"⟩) "e1"
    (by decide) (by decide) rowParent_inv

end SelectEbook

namespace DirectDownload

/-- An organize-job enqueue event. -/
def DDEvent.isOrganize : DDEvent → Bool
  | .organizeJob _ _ _ => true
  | _ => false

/-- Candidate `u` does not produce a usable file: either extraction yields
no result, or every successful fetch of the resolved URL writes an empty
file (a rejected fetch fails the candidate as well). -/
def candidateFails (env : DDEnv) (u : String) : Prop :=
  ∀ r, env.extract u = some r → ∀ n, env.fetchDownload r.url = .ok n → n = 0

theorem tryCandidates_all_fail (env : DDEnv) (p : StartPayload) (dir : String)
    (cs : List String) (hfail : ∀ u ∈ cs, candidateFails env u) :
    (tryCandidates env p dir cs).2 = false ∧
    ∀ e ∈ (tryCandidates env p dir cs).1, e.isOrganize = false := by
  induction cs with
  | nil => exact ⟨rfl, by intro e he; simp [tryCandidates] at he⟩
  | cons u rest ih =>
    have hu := hfail u (List.mem_cons_self u rest)
    have ihr := ih (fun v hv => hfail v (List.mem_cons_of_mem _ hv))
    cases hx : env.extract u with
    | none =>
      refine ⟨by simp [tryCandidates, hx, ihr.1], ?_⟩
      intro e he
      simp only [tryCandidates, hx, List.mem_cons] at he
      rcases he with rfl | he
      · rfl
      · exact ihr.2 e he
    | some res =>
      cases hf : env.fetchDownload res.url with
      | error msg =>
        refine ⟨by simp [tryCandidates, hx, hf, ihr.1], ?_⟩
        intro e he
        simp [tryCandidates, hx, hf] at he
        rcases he with rfl | rfl | he
        · rfl
        · rfl
        · exact ihr.2 e he
      | ok n =>
        have hn : n = 0 := hu res hx n hf
        subst hn
        refine ⟨by simp [tryCandidates, hx, hf, ihr.1], ?_⟩
        intro e he
        simp [tryCandidates, hx, hf] at he
        rcases he with rfl | rfl | he
        · rfl
        · rfl
        · exact ihr.2 e he

theorem tryCandidates_extract_args (env : DDEnv) (p : StartPayload) (dir : String)
    (cs : List String) (u b f : String) (fl : Option String)
    (hmem : DDEvent.extractCall u b f fl ∈ (tryCandidates env p dir cs).1) :
    b = (env.config "ebook_sidecar_base_url").getD "" ∧
    f = (env.config "ebook_sidecar_preferred_format").getD "epub" ∧
    fl = env.config "ebook_sidecar_flaresolverr_url" := by
  induction cs with
  | nil => simp [tryCandidates] at hmem
  | cons v rest ih =>
    cases hx : env.extract v with
    | none =>
      simp [tryCandidates, hx] at hmem
      rcases hmem with ⟨_, rfl, rfl, rfl⟩ | hmem
      · exact ⟨rfl, rfl, rfl⟩
      · exact ih hmem
    | some res =>
      cases hf : env.fetchDownload res.url with
      | error msg =>
        simp [tryCandidates, hx, hf] at hmem
        rcases hmem with ⟨_, rfl, rfl, rfl⟩ | hmem
        · exact ⟨rfl, rfl, rfl⟩
        · exact ih hmem
      | ok n =>
        by_cases hz : n = 0
        · subst hz
          simp [tryCandidates, hx, hf] at hmem
          rcases hmem with ⟨_, rfl, rfl, rfl⟩ | hmem
          · exact ⟨rfl, rfl, rfl⟩
          · exact ih hmem
        · simp [tryCandidates, hx, hf, hz] at hmem
          obtain ⟨_, rfl, rfl, rfl⟩ := hmem
          exact ⟨rfl, rfl, rfl⟩

end DirectDownload

namespace DirectDownload

/-- C1: when the download-history row of a direct download holds a list of
candidate URLs and every candidate fails extraction or download, the
processor returns `success: false` without raising, the request row is
updated to `failed`, the history row is updated to `failed`, and no
organize job is enqueued. -/
theorem startDirectDownload_all_candidates_fail
    (env : DDEnv) (p : StartPayload) (cs : List String)
    (hhist : env.findHistory p.downloadHistoryId = .ok (some ⟨cs⟩))
    (hfail : ∀ u ∈ cs, candidateFails env u) :
    (processStartDirectDownload env p).2 = .ok ⟨false⟩ ∧
    DDEvent.reqUpdate p.requestId "failed" none (some "All download attempts failed")
      ∈ (processStartDirectDownload env p).1 ∧
    DDEvent.histUpdate p.downloadHistoryId "failed"
      ∈ (processStartDirectDownload env p).1 ∧
    ∀ e ∈ (processStartDirectDownload env p).1, e.isOrganize = false := by
  have hmain := tryCandidates_all_fail env p ((env.config "downloads_dir").getD "") cs hfail
  unfold processStartDirectDownload
  rw [hhist]
  simp only [hmain.1, Bool.false_eq_true, if_false]
  refine ⟨by simp, by simp, by simp, ?_⟩
  intro e he
  simp only [List.mem_cons, List.mem_append] at he
  rcases he with rfl | rfl | (he | he)
  · rfl
  · rfl
  · exact hmain.2 e he
  · rcases he with rfl | rfl | h
    · rfl
    · rfl
    · exact absurd h (List.not_mem_nil e)

/-- A configuration with the keys the processor reads (no FlareSolverr
URL). -/
def ddConfig : String → Option String := fun k =>
  if k = "downloads_dir" then some "/downloads"
  else if k = "ebook_sidecar_base_url" then some "https://annas-archive.li"
  else if k = "ebook_sidecar_preferred_format" then some "epub"
  else none

/-- The same configuration with a FlareSolverr URL set. -/
def ddConfigFlare : String → Option String := fun k =>
  if k = "ebook_sidecar_flaresolverr_url" then some "http://flaresolverr:8191"
  else ddConfig k

/-- An environment whose extractor never resolves any candidate. -/
def envExtractNone : DDEnv :=
  ⟨ddConfig, fun _ => .ok (some ⟨["https://m1.example/book", "https://m2.example/book"]⟩),
   fun _ => none, fun _ => .error "unreachable", fun _ => "ab-1"⟩

/-- An environment whose history lookup rejects (backing store down). -/
def envDbDown : DDEnv :=
  ⟨ddConfig, fun _ => .error "Database error", fun _ => none,
   fun _ => .error "unreachable", fun _ => "ab-1"⟩

/-- An environment with FlareSolverr configured and a failing extractor. -/
def envFlare : DDEnv :=
  ⟨ddConfigFlare, fun _ => .ok (some ⟨["https://m1.example/book"]⟩), fun _ => none,
   fun _ => .error "unreachable", fun _ => "ab-1"⟩

/-- A concrete start payload. -/
def payloadS : StartPayload :=
  ⟨"req-1", "dh-1", "https://m1.example/book", "Test Book.epub", "job-1"⟩

/-- Witness for C1 at a two-candidate history row whose extractions all
fail. -/
theorem startDirectDownload_all_candidates_fail_witness :
    (processStartDirectDownload envExtractNone payloadS).2 = .ok ⟨false⟩ ∧
    DDEvent.reqUpdate "req-1" "failed" none (some "All download attempts failed")
      ∈ (processStartDirectDownload envExtractNone payloadS).1 ∧
    DDEvent.histUpdate "dh-1" "failed"
      ∈ (processStartDirectDownload envExtractNone payloadS).1 ∧
    ∀ e ∈ (processStartDirectDownload envExtractNone payloadS).1, e.isOrganize = false :=
  startDirectDownload_all_candidates_fail envExtractNone payloadS
    ["https://m1.example/book", "https://m2.example/book"] rfl
    (by intro u hu r hr n hn; simp [envExtractNone] at hr)

/-- C2: when the history lookup rejects with an unexpected store error, the
processor's promise rejects with that same error message, and the trace —
everything persisted before the rejection — contains the update of the
request row to `failed` carrying that message. -/
theorem startDirectDownload_store_error
    (env : DDEnv) (p : StartPayload) (e : String)
    (hhist : env.findHistory p.downloadHistoryId = .error e) :
    (processStartDirectDownload env p).2 = .error e ∧
    DDEvent.reqUpdate p.requestId "failed" none (some e)
      ∈ (processStartDirectDownload env p).1 := by
  unfold processStartDirectDownload
  rw [hhist]
  exact ⟨rfl, by simp⟩

/-- Witness for C2 under the store-down environment. -/
theorem startDirectDownload_store_error_witness :
    (processStartDirectDownload envDbDown payloadS).2 = .error "Database error" ∧
    DDEvent.reqUpdate "req-1" "failed" none (some "Database error")
      ∈ (processStartDirectDownload envDbDown payloadS).1 :=
  startDirectDownload_store_error envDbDown payloadS "Database error" rfl

theorem head_two_not_network (a b : DDEvent) (rest : List DDEvent)
    (ha : a.isNetwork = false) (hb : b.isNetwork = false) :
    ∀ ev ∈ a :: b :: rest, ev.isNetwork = true → ev ∈ rest := by
  intro ev hev hnet
  rcases List.mem_cons.mp hev with rfl | hev
  · rw [hnet] at ha; exact absurd ha (by simp)
  · rcases List.mem_cons.mp hev with rfl | hev
    · rw [hnet] at hb; exact absurd hb (by simp)
    · exact hev

/-- C3: on every execution path, the trace begins with the request-row
update to `downloading`/progress 0 followed by the history-row update to
`downloading`, so every network event (extractor attempt or fetch) occurs
strictly after both writes — including paths where no byte is ever
fetched. -/
theorem processStart_trace_shape (env : DDEnv) (p : StartPayload) :
    ∃ rest, (processStartDirectDownload env p).1 =
      DDEvent.reqUpdate p.requestId "downloading" (some 0) none ::
      DDEvent.histUpdate p.downloadHistoryId "downloading" :: rest := by
  unfold processStartDirectDownload
  cases env.findHistory p.downloadHistoryId with
  | error e => exact ⟨_, rfl⟩
  | ok histOpt =>
    dsimp only
    split
    · exact ⟨_, rfl⟩
    · exact ⟨_, rfl⟩

theorem startDirectDownload_downloading_precedes_network
    (env : DDEnv) (p : StartPayload) :
    ∃ rest, (processStartDirectDownload env p).1 =
      DDEvent.reqUpdate p.requestId "downloading" (some 0) none ::
      DDEvent.histUpdate p.downloadHistoryId "downloading" :: rest ∧
    ∀ ev ∈ (processStartDirectDownload env p).1, ev.isNetwork = true → ev ∈ rest := by
  obtain ⟨rest, hrest⟩ := processStart_trace_shape env p
  refine ⟨rest, hrest, ?_⟩
  rw [hrest]
  exact head_two_not_network _ _ _ rfl rfl

/-- C4: every extractor invocation carries, as its trailing argument,
exactly the configured FlareSolverr URL — the URL itself when the
`ebook_sidecar_flaresolverr_url` key is set, and the empty-equivalent
`none` when it is not. -/
theorem startDirectDownload_flaresolverr_passthrough
    (env : DDEnv) (p : StartPayload) (u b f : String) (fl : Option String)
    (hmem : DDEvent.extractCall u b f fl ∈ (processStartDirectDownload env p).1) :
    fl = env.config "ebook_sidecar_flaresolverr_url" ∧
    (∀ url, env.config "ebook_sidecar_flaresolverr_url" = some url → fl = some url) ∧
    (env.config "ebook_sidecar_flaresolverr_url" = none → fl = none) := by
  have hfl : fl = env.config "ebook_sidecar_flaresolverr_url" := by
    unfold processStartDirectDownload at hmem
    cases hh : env.findHistory p.downloadHistoryId with
    | error e =>
      rw [hh] at hmem
      simp at hmem
    | ok histOpt =>
      rw [hh] at hmem
      dsimp only at hmem
      split at hmem
      · simp only [List.mem_cons] at hmem
        rcases hmem with h | h | h
        · exact absurd h (by simp)
        · exact absurd h (by simp)
        · exact (tryCandidates_extract_args env p _ _ u b f fl h).2.2
      · simp only [List.mem_cons, List.mem_append] at hmem
        rcases hmem with h | h | (h | h)
        · exact absurd h (by simp)
        · exact absurd h (by simp)
        · exact (tryCandidates_extract_args env p _ _ u b f fl h).2.2
        · simp at h
  exact ⟨hfl, fun url hc => by rw [hfl, hc], fun hc => by rw [hfl, hc]⟩

/-- Witness for C4: with FlareSolverr configured, the recorded extractor
call carries the configured URL. -/
theorem startDirectDownload_flaresolverr_passthrough_witness :
    (some "http://flaresolverr:8191" : Option String) =
      envFlare.config "ebook_sidecar_flaresolverr_url" ∧
    (∀ url, envFlare.config "ebook_sidecar_flaresolverr_url" = some url →
      (some "http://flaresolverr:8191" : Option String) = some url) ∧
    (envFlare.config "ebook_sidecar_flaresolverr_url" = none →
      (some "http://flaresolverr:8191" : Option String) = none) :=
  startDirectDownload_flaresolverr_passthrough envFlare payloadS
    "https://m1.example/book" "https://annas-archive.li" "epub"
    (some "http://flaresolverr:8191") (by decide)

/-- C5: the monitor processor reports success and completion exactly when
the stat of the target path succeeds, and a `success: false` result whose
message contains "not found" when the stat rejects; the result depends on
nothing else, so a still-downloading file and one that never started are
indistinguishable to it. -/
theorem monitorDirectDownload_stat_dichotomy
    (env : MonitorEnv) (p : MonitorPayload) :
    (∀ n, env.stat p.targetPath = .ok n →
      processMonitorDirectDownload env p = ⟨true, true, none⟩) ∧
    (∀ e, env.stat p.targetPath = .error e →
      (processMonitorDirectDownload env p).success = false ∧
      ∃ pre, (processMonitorDirectDownload env p).message = some (pre ++ " not found")) := by
  constructor
  · intro n hn
    unfold processMonitorDirectDownload
    rw [hn]
  · intro e he
    unfold processMonitorDirectDownload
    rw [he]
    exact ⟨rfl, p.downloadId, rfl⟩

/-- A filesystem where the stat succeeds. -/
def envStatOk : MonitorEnv := ⟨fun _ => .ok 1000000⟩

/-- A filesystem where the stat rejects. -/
def envStatMissing : MonitorEnv := ⟨fun _ => .error "ENOENT"⟩

/-- A concrete monitor payload. -/
def payloadM : MonitorPayload :=
  ⟨"req-m1", "dh-m1", "dl-1", "/downloads/book.epub", 1000000, "job-m1"⟩

/-- Witness for C5 on both sides of the dichotomy. -/
theorem monitorDirectDownload_stat_dichotomy_witness :
    processMonitorDirectDownload envStatOk payloadM = ⟨true, true, none⟩ ∧
    (processMonitorDirectDownload envStatMissing payloadM).success = false ∧
    ∃ pre, (processMonitorDirectDownload envStatMissing payloadM).message =
      some (pre ++ " not found") :=
  ⟨(monitorDirectDownload_stat_dichotomy envStatOk payloadM).1 1000000 rfl,
   (monitorDirectDownload_stat_dichotomy envStatMissing payloadM).2 "ENOENT" rfl⟩

end DirectDownload
